import Mathlib

/-!
# Verification of the real-time fraud scoring core (src/api/main.py)

Shallow embedding of the decision pipeline of the fraud scoring service:
feature-contract validation (`preprocess_input`), probability-to-decision
mapping (`make_decision`), the append-only audit log (`log_transaction`),
and the `/predict` orchestration (`predict_fraud`).

Numeric values are modelled as rationals; Python float comparison semantics
(NaN, infinities) are captured by the `PyFloat` type where the claims need
them.
-/

namespace FraudSystem

/-- `REVIEW_THRESHOLD = 0.90` from src/api/main.py line 42. -/
def REVIEW_THRESHOLD : ℚ := 9 / 10

/-- `BLOCK_THRESHOLD = 0.993` from src/api/main.py line 43. -/
def BLOCK_THRESHOLD : ℚ := 993 / 1000

/-- A Python float as it behaves under comparison: NaN, the two infinities,
or a finite value (modelled as a rational). -/
inductive PyFloat where
  | nan : PyFloat
  | inf : PyFloat
  | ninf : PyFloat
  | fin (q : ℚ) : PyFloat
deriving DecidableEq

/-- Python `p >= t` for a float `p` and a finite threshold `t`:
every comparison with NaN is false. -/
def PyFloat.ge (p : PyFloat) (t : ℚ) : Bool :=
  match p with
  | .nan => false
  | .inf => true
  | .ninf => false
  | .fin q => decide (t ≤ q)

/-- `make_decision` from src/api/main.py lines 90-96:
`if probability >= BLOCK_THRESHOLD: "BLOCK" elif probability >= REVIEW_THRESHOLD:
"REVIEW" else: "ALLOW"`. -/
def make_decision (probability : PyFloat) : String :=
  if probability.ge BLOCK_THRESHOLD then "BLOCK"
  else if probability.ge REVIEW_THRESHOLD then "REVIEW"
  else "ALLOW"

/-- The two contract violations raised by `preprocess_input`
(`ValueError("Missing features: ...")` / `ValueError("Unexpected features: ...")`),
kept structured with the offending name sets. -/
inductive ContractError where
  | missingFeatures (names : Finset String) : ContractError
  | unexpectedFeatures (names : Finset String) : ContractError
deriving DecidableEq

/-- The key list of an input mapping (`df.columns` of `pd.DataFrame([features])`
is the dict's keys). -/
def keysOf (features : List (String × ℚ)) : List String :=
  features.map Prod.fst

/-- `preprocess_input` from src/api/main.py lines 74-85: computes
`missing = set(FEATURE_LIST) - set(df.columns)` and
`extra = set(df.columns) - set(FEATURE_LIST)`, raises on a non-empty
`missing` first, then on a non-empty `extra`, and otherwise returns the
columns selected in schema order (`df[FEATURE_LIST]`). The input dict is a
list of key-value pairs; `FEATURE_LIST` is the `schema` parameter. -/
def preprocess_input (schema : List String) (features : List (String × ℚ)) :
    Except ContractError (List ℚ) :=
  if schema.toFinset \ (keysOf features).toFinset ≠ ∅ then
    .error (.missingFeatures (schema.toFinset \ (keysOf features).toFinset))
  else if (keysOf features).toFinset \ schema.toFinset ≠ ∅ then
    .error (.unexpectedFeatures ((keysOf features).toFinset \ schema.toFinset))
  else .ok (schema.filterMap (fun n => List.lookup n features))

instance {ε α : Type} [DecidableEq ε] [DecidableEq α] : DecidableEq (Except ε α)
  | .ok a, .ok b =>
      if h : a = b then .isTrue (by rw [h]) else .isFalse (by simp [h])
  | .ok _, .error _ => .isFalse (by simp)
  | .error _, .ok _ => .isFalse (by simp)
  | .error a, .error b =>
      if h : a = b then .isTrue (by rw [h]) else .isFalse (by simp [h])

/-- One CSV row of the audit log: the header row
`["timestamp", "fraud_probability", "decision"]` or a data row. -/
inductive Row where
  | header : Row
  | data (timestamp : String) (fraud_probability : ℚ) (decision : String) : Row
deriving DecidableEq

/-- The state of the log file: `none` when `LOG_FILE` does not exist,
`some rows` when it exists with the given rows. -/
abbrev LogState := Option (List Row)

/-- `round(x, 6)`: rounding to 6 decimal digits (the exact tie-breaking of
Python's float `round` is immaterial to every claim below, none of which
constrains a tie). -/
def round6 (q : ℚ) : ℚ := ((round (q * 1000000) : ℤ) : ℚ) / 1000000

/-- `log_transaction` from src/api/main.py lines 58-69:
`write_header = not LOG_FILE.exists()`; the file is opened in append mode
(creating it if absent), the header row is written when `write_header`,
then the data row `[timestamp, round(float(probability), 6), decision]`. -/
def log_transaction (ts : String) (probability : ℚ) (decision : String)
    (st : LogState) : LogState :=
  match st with
  | none => some [Row.header, Row.data ts (round6 probability) decision]
  | some rows => some (rows ++ [Row.data ts (round6 probability) decision])

/-- The exception caught by `predict_fraud`'s `except` clause, kept
structured by its origin (the source renders it with `str(e)`). -/
inductive ErrMsg where
  | contract (e : ContractError) : ErrMsg
  | scoring (msg : String) : ErrMsg
  | persistence (msg : String) : ErrMsg
deriving DecidableEq

/-- The JSON body returned by `predict_fraud`: either
`{"fraud_probability": ..., "decision": ...}` or `{"error": ...}`. -/
inductive Response where
  | ok (fraud_probability : ℚ) (decision : String) : Response
  | error (e : ErrMsg) : Response
deriving DecidableEq

/-- `predict_fraud` from src/api/main.py lines 101-118. Parameters model the
ambient state: `scorer` is `model.predict_proba(X)[0, 1]` (the opaque model;
it may raise, modelled by `Except`), `ts` the timestamp `datetime.now()`
produces inside `log_transaction`, `fsFail` the filesystem's behaviour for
this append — `none` when the write succeeds, `some (e, st')` when it
raises `e` having left the log file in state `st'` (the `open` in append
mode may already have created the file, and a flush failure at `with`-exit
can leave an empty or partially written file, so `st'` is arbitrary) —
and `st` the current log file state. The `try`/`except` wraps the whole
body, so any raised exception — validation, scoring or logging — produces
the `{"error": str(e)}` body. -/
def predict_fraud (schema : List String) (scorer : List ℚ → Except String ℚ)
    (ts : String) (fsFail : Option (String × LogState))
    (features : List (String × ℚ)) (st : LogState) : Response × LogState :=
  match preprocess_input schema features with
  | .error e => (.error (.contract e), st)
  | .ok X =>
    match scorer X with
    | .error e => (.error (.scoring e), st)
    | .ok p =>
      let decision := make_decision (.fin p)
      match fsFail with
      | some e => (.error (.persistence e.1), e.2)
      | none => (.ok (round6 p) decision, log_transaction ts p decision st)

/-- The transport-level outcome of a request: the handler returned a value
normally, or it raised an exception out of the handler. -/
inductive HttpResult where
  | returned (body : Response) : HttpResult
  | raised (msg : String) : HttpResult
deriving DecidableEq

/-- Modelled from the spec: the FastAPI transport layer (third-party, not in
src/) maps a handler that returns normally to an HTTP 200 response with the
returned body, and a non-success status arises only when the handler raises.
`predict_fraud`'s catch-all `except` means the handler always returns
normally, so the endpoint result is always `returned`. -/
def predict_endpoint (schema : List String) (scorer : List ℚ → Except String ℚ)
    (ts : String) (fsFail : Option (String × LogState))
    (features : List (String × ℚ)) (st : LogState) : HttpResult :=
  .returned (predict_fraud schema scorer ts fsFail features st).1

/-- Modelled from the spec: the HTTP status FastAPI assigns to a transport
outcome — 200 for a normal return, 500 for an escaped exception. -/
def httpStatus : HttpResult → ℕ
  | .returned _ => 200
  | .raised _ => 500

/-- A scoring call: the timestamp the clock will produce and the request's
feature mapping. -/
abbrev Call := String × List (String × ℚ)

/-- Whether a call validates and scores successfully (reaches the log write). -/
def callOk (schema : List String) (scorer : List ℚ → Except String ℚ)
    (c : Call) : Bool :=
  match preprocess_input schema c.2 with
  | .error _ => false
  | .ok X =>
    match scorer X with
    | .ok _ => true
    | .error _ => false

/-- The data row a successful call appends (meaningful only under `callOk`;
the dead branches return the header row, which `callOk` rules out). -/
def callRow (schema : List String) (scorer : List ℚ → Except String ℚ)
    (c : Call) : Row :=
  match preprocess_input schema c.2 with
  | .error _ => Row.header
  | .ok X =>
    match scorer X with
    | .error _ => Row.header
    | .ok p => Row.data c.1 (round6 p) (make_decision (.fin p))

/-- The probability a call scores to (meaningful only under `callOk`). -/
def callProb (schema : List String) (scorer : List ℚ → Except String ℚ)
    (c : Call) : ℚ :=
  match preprocess_input schema c.2 with
  | .error _ => 0
  | .ok X =>
    match scorer X with
    | .error _ => 0
    | .ok p => p

/-- Sequential execution of a list of scoring calls against the service,
threading the log state (the filesystem cooperating, `fsFail = none`). -/
def runCalls (schema : List String) (scorer : List ℚ → Except String ℚ) :
    List Call → LogState → LogState
  | [], st => st
  | c :: rest, st =>
      runCalls schema scorer rest (predict_fraud schema scorer c.1 none c.2 st).2

/-! ## Decision policy claims -/

/-- C1: For every probability p, the decision function returns BLOCK iff
`p >= block_threshold`, REVIEW iff `review_threshold <= p < block_threshold`,
and ALLOW iff `p < review_threshold`; a probability exactly at a threshold
goes to the higher-severity decision. -/
theorem decision_buckets (q : ℚ) :
    (make_decision (.fin q) = "BLOCK" ↔ BLOCK_THRESHOLD ≤ q) ∧
    (make_decision (.fin q) = "REVIEW" ↔ REVIEW_THRESHOLD ≤ q ∧ q < BLOCK_THRESHOLD) ∧
    (make_decision (.fin q) = "ALLOW" ↔ q < REVIEW_THRESHOLD) := by
  have hrb : REVIEW_THRESHOLD ≤ BLOCK_THRESHOLD := by
    unfold REVIEW_THRESHOLD BLOCK_THRESHOLD; norm_num
  simp only [make_decision, PyFloat.ge]
  by_cases hb : BLOCK_THRESHOLD ≤ q
  · simp [hb, not_lt.mpr hb, not_lt.mpr (le_trans hrb hb)]
  · by_cases hr : REVIEW_THRESHOLD ≤ q
    · simp [hb, hr, not_lt.mpr hr, not_le.mp hb]
    · simp [hb, hr, not_le.mp hr]

/-- Witness for C1: the boundary probability 0.993 is BLOCK. -/
theorem decision_buckets_witness :
    make_decision (.fin (993 / 1000)) = "BLOCK" :=
  (decision_buckets (993 / 1000)).1.mpr (by unfold BLOCK_THRESHOLD; norm_num)

/-- C10: the decision function is total over all float inputs, always
returning exactly one of ALLOW/REVIEW/BLOCK; whenever neither threshold
comparison holds — in particular for NaN and for finite values below 0 —
it returns ALLOW. -/
theorem decision_total (p : PyFloat) (q : ℚ) :
    (make_decision p = "ALLOW" ∨ make_decision p = "REVIEW" ∨
      make_decision p = "BLOCK") ∧
    (p.ge BLOCK_THRESHOLD = false → p.ge REVIEW_THRESHOLD = false →
      make_decision p = "ALLOW") ∧
    make_decision PyFloat.nan = "ALLOW" ∧
    (q < 0 → make_decision (.fin q) = "ALLOW") := by
  refine ⟨?_, ?_, ?_, ?_⟩
  · unfold make_decision
    by_cases hb : p.ge BLOCK_THRESHOLD <;> by_cases hr : p.ge REVIEW_THRESHOLD <;>
      simp [hb, hr]
  · intro hb hr; simp [make_decision, hb, hr]
  · rfl
  · intro hq
    have : ¬ REVIEW_THRESHOLD ≤ q := by
      unfold REVIEW_THRESHOLD; intro h; nlinarith
    have hb : ¬ BLOCK_THRESHOLD ≤ q := by
      unfold BLOCK_THRESHOLD; intro h; nlinarith
    simp [make_decision, PyFloat.ge, this, hb]

/-- The hard-coded threshold constants satisfy the ordering invariant
`0 ≤ review_threshold < block_threshold ≤ 1`. (No configuration-time check
exists in the source; the constants simply satisfy the invariant.) -/
theorem thresholds_ordered :
    0 ≤ REVIEW_THRESHOLD ∧ REVIEW_THRESHOLD < BLOCK_THRESHOLD ∧
    BLOCK_THRESHOLD ≤ 1 := by
  unfold REVIEW_THRESHOLD BLOCK_THRESHOLD
  norm_num

/-! ## Lookup helper lemmas (shared) -/

theorem lookup_isSome_iff (n : String) (features : List (String × ℚ)) :
    (List.lookup n features).isSome ↔ n ∈ keysOf features := by
  induction features with
  | nil => simp [keysOf]
  | cons p rest ih =>
    obtain ⟨k, v⟩ := p
    rw [List.lookup_cons]
    by_cases h : n = k
    · simp [h, keysOf]
    · have hbeq : (n == k) = false := beq_false_of_ne h
      simp [hbeq, keysOf, h, ih]

theorem lookup_eq_none_iff (n : String) (features : List (String × ℚ)) :
    List.lookup n features = none ↔ n ∉ keysOf features := by
  rw [← lookup_isSome_iff, ← Option.not_isSome_iff_eq_none]

theorem mem_of_lookup_eq_some {n : String} {v : ℚ} {features : List (String × ℚ)}
    (h : List.lookup n features = some v) : (n, v) ∈ features := by
  induction features with
  | nil => simp [List.lookup] at h
  | cons p rest ih =>
    obtain ⟨k, w⟩ := p
    rw [List.lookup_cons] at h
    by_cases hk : n = k
    · have : (n == k) = true := beq_iff_eq.mpr hk
      simp [this] at h
      simp [hk, h]
    · have : (n == k) = false := beq_false_of_ne hk
      simp [this] at h
      exact List.mem_cons_of_mem _ (ih h)

theorem lookup_eq_some_of_mem {n : String} {v : ℚ} {features : List (String × ℚ)}
    (hnd : (keysOf features).Nodup) (h : (n, v) ∈ features) :
    List.lookup n features = some v := by
  induction features with
  | nil => simp at h
  | cons p rest ih =>
    obtain ⟨k, w⟩ := p
    simp only [keysOf, List.map_cons, List.nodup_cons] at hnd
    rw [List.lookup_cons]
    rcases List.mem_cons.mp h with heq | hmem
    · have : (n == k) = true := beq_iff_eq.mpr (by simpa using congrArg Prod.fst heq)
      simp [this]
      simpa using (congrArg Prod.snd heq).symm
    · have hk : n ≠ k := by
        rintro rfl
        exact hnd.1 (by simpa [keysOf] using List.mem_map_of_mem Prod.fst hmem)
      have : (n == k) = false := beq_false_of_ne hk
      simp [this]
      exact ih hnd.2 hmem

theorem lookup_eq_of_perm {l₁ l₂ : List (String × ℚ)} (h : l₁.Perm l₂)
    (hnd : (keysOf l₂).Nodup) (n : String) :
    List.lookup n l₁ = List.lookup n l₂ := by
  cases hl : List.lookup n l₁ with
  | none =>
    symm
    rw [lookup_eq_none_iff] at hl ⊢
    intro hmem
    exact hl (by simpa [keysOf] using ((h.map Prod.fst).mem_iff).mpr (by simpa [keysOf] using hmem))
  | some v =>
    exact (lookup_eq_some_of_mem hnd (h.mem_iff.mp (mem_of_lookup_eq_some hl))).symm

theorem filterMap_eq_map_getD {schema : List String} {f : String → Option ℚ}
    (h : ∀ n ∈ schema, (f n).isSome) :
    schema.filterMap f = schema.map (fun n => (f n).getD 0) := by
  induction schema with
  | nil => rfl
  | cons a rest ih =>
    have ha := h a (List.mem_cons_self a rest)
    obtain ⟨v, hv⟩ := Option.isSome_iff_exists.mp ha
    simp [List.filterMap_cons, hv, ih fun n hn => h n (List.mem_cons_of_mem _ hn)]

/-! ## Validator claims -/

/-- C4: for every input mapping whose key set equals the schema name set
exactly, validation succeeds and returns the values reordered into schema
order (every schema name is present in the input, and the output is the
input's value at each schema name, in schema order), independent of the
order of the key-value pairs in the input. -/
theorem validate_success (schema : List String) (features features' : List (String × ℚ))
    (hnd : (keysOf features).Nodup)
    (hset : (keysOf features).toFinset = schema.toFinset)
    (hperm : features'.Perm features) :
    preprocess_input schema features =
      .ok (schema.map (fun n => (List.lookup n features).getD 0)) ∧
    schema.all (fun n => (List.lookup n features).isSome) = true ∧
    preprocess_input schema features' = preprocess_input schema features := by
  have hsome : ∀ n ∈ schema, (List.lookup n features).isSome := by
    intro n hn
    rw [lookup_isSome_iff, ← List.mem_toFinset, hset, List.mem_toFinset]
    exact hn
  have hmiss : schema.toFinset \ (keysOf features).toFinset = ∅ := by
    rw [hset, Finset.sdiff_self]
  have hext : (keysOf features).toFinset \ schema.toFinset = ∅ := by
    rw [hset, Finset.sdiff_self]
  refine ⟨?_, ?_, ?_⟩
  · rw [preprocess_input, if_neg (by simp [hmiss]), if_neg (by simp [hext])]
    rw [filterMap_eq_map_getD hsome]
  · exact List.all_eq_true.mpr fun n hn => by simpa using hsome n (by simpa using hn)
  · have hkperm : (keysOf features').Perm (keysOf features) := hperm.map Prod.fst
    have hset' : (keysOf features').toFinset = (keysOf features).toFinset :=
      List.toFinset_eq_of_perm _ _ hkperm
    rw [preprocess_input, preprocess_input, hset']
    rw [List.filterMap_congr fun a _ => lookup_eq_of_perm hperm hnd a]

/-- Witness for C4: schema ["A","B"], input given in reverse key order. -/
theorem validate_success_witness :
    preprocess_input ["A", "B"] [("B", 2), ("A", 1)] =
      .ok (["A", "B"].map (fun n => (List.lookup n [("B", 2), ("A", 1)]).getD 0)) ∧
    (["A", "B"].all (fun n => (List.lookup n [("B", (2:ℚ)), ("A", 1)]).isSome) = true) ∧
    preprocess_input ["A", "B"] [("A", 1), ("B", 2)] =
      preprocess_input ["A", "B"] [("B", 2), ("A", 1)] :=
  validate_success ["A", "B"] [("B", 2), ("A", 1)] [("A", 1), ("B", 2)]
    (by decide) (by decide) (by decide)

/-- C5 counterexample: schema ["A","B"], input {"C": 3} both misses schema
names and has an extra name; validation reports `MissingFeatures {"A","B"}`,
not an `UnexpectedFeatures` error containing the extra set {"C"} as the
claim's second conjunct requires. -/
theorem validate_extra_counterexample :
    preprocess_input ["A", "B"] [("C", 3)] =
      .error (.missingFeatures ({"A", "B"} : Finset String)) ∧
    preprocess_input ["A", "B"] [("C", 3)] ≠
      .error (.unexpectedFeatures ({"C"} : Finset String)) := by
  constructor
  · decide
  · decide

/-- C5 (amended): for every input missing at least one schema name,
validation fails with `MissingFeatures` containing exactly the missing
names; and for every input missing no schema name but containing at least
one extra name, validation fails with `UnexpectedFeatures` containing
exactly the extra names. -/
theorem validate_error_sets (schema : List String) (features : List (String × ℚ)) :
    (schema.toFinset \ (keysOf features).toFinset ≠ ∅ →
      preprocess_input schema features =
        .error (.missingFeatures (schema.toFinset \ (keysOf features).toFinset))) ∧
    (schema.toFinset \ (keysOf features).toFinset = ∅ →
      (keysOf features).toFinset \ schema.toFinset ≠ ∅ →
      preprocess_input schema features =
        .error (.unexpectedFeatures ((keysOf features).toFinset \ schema.toFinset))) := by
  constructor
  · intro hm
    rw [preprocess_input, if_pos hm]
  · intro hm he
    rw [preprocess_input, if_neg (by simp [hm]), if_pos he]

/-- Witness for C5 (amended): a missing-name input and an extra-name input. -/
theorem validate_error_sets_witness :
    preprocess_input ["A", "B"] [("A", 1)] =
      .error (.missingFeatures (["A", "B"].toFinset \ (keysOf [("A", 1)]).toFinset)) ∧
    preprocess_input ["A"] [("A", 1), ("C", 3)] =
      .error (.unexpectedFeatures ((keysOf [("A", 1), ("C", 3)]).toFinset \ ["A"].toFinset)) :=
  ⟨(validate_error_sets ["A", "B"] [("A", 1)]).1 (by decide),
   (validate_error_sets ["A"] [("A", 1), ("C", 3)]).2 (by decide) (by decide)⟩

/-- C9: when an input both misses schema names and contains extra names, the
missing-names check runs first and `MissingFeatures` is reported; an
`UnexpectedFeatures` error can only arise when the missing set is empty. -/
theorem missing_checked_first (schema : List String) (features : List (String × ℚ))
    (s : Finset String) :
    (schema.toFinset \ (keysOf features).toFinset ≠ ∅ →
      (keysOf features).toFinset \ schema.toFinset ≠ ∅ →
      preprocess_input schema features =
        .error (.missingFeatures (schema.toFinset \ (keysOf features).toFinset))) ∧
    (preprocess_input schema features = .error (.unexpectedFeatures s) →
      schema.toFinset \ (keysOf features).toFinset = ∅) := by
  constructor
  · intro hm _
    rw [preprocess_input, if_pos hm]
  · intro h
    by_contra hm
    rw [preprocess_input, if_pos hm] at h
    simp at h

/-- Witness for C9: schema ["A","B"], input {"C": 3} (both violations
present) reports the missing set; schema ["A"], input {"A","B"} (extra
only) demonstrates the unexpected case forces an empty missing set. -/
theorem missing_checked_first_witness :
    preprocess_input ["A", "B"] [("C", 3)] =
      .error (.missingFeatures (["A", "B"].toFinset \ (keysOf [("C", 3)]).toFinset)) ∧
    ["A"].toFinset \ (keysOf [("A", 1), ("B", 2)]).toFinset = ∅ :=
  ⟨(missing_checked_first ["A", "B"] [("C", 3)] ∅).1 (by decide) (by decide),
   (missing_checked_first ["A"] [("A", 1), ("B", 2)]
      ((keysOf [("A", 1), ("B", 2)]).toFinset \ ["A"].toFinset)).2 (by decide)⟩

/-- Witness for C10: evaluated at NaN and at -1. -/
theorem decision_total_witness :
    (make_decision PyFloat.nan = "ALLOW" ∨ make_decision PyFloat.nan = "REVIEW" ∨
      make_decision PyFloat.nan = "BLOCK") ∧
    (PyFloat.nan.ge BLOCK_THRESHOLD = false → PyFloat.nan.ge REVIEW_THRESHOLD = false →
      make_decision PyFloat.nan = "ALLOW") ∧
    make_decision PyFloat.nan = "ALLOW" ∧
    ((-1 : ℚ) < 0 → make_decision (.fin (-1)) = "ALLOW") :=
  decision_total PyFloat.nan (-1)

/-! ## Pipeline claims -/

/-- C6: a request that fails validation writes no audit-log record (the log
state is unchanged), never calls the Scorer (the outcome is identical for
any two scorers), and yields a structured error body, not a decision. -/
theorem failed_validation_no_effects (schema : List String)
    (scorer scorer' : List ℚ → Except String ℚ) (ts : String)
    (fsFail : Option (String × LogState)) (features : List (String × ℚ)) (st : LogState)
    (e : ContractError)
    (h : preprocess_input schema features = .error e) :
    predict_fraud schema scorer ts fsFail features st = (.error (.contract e), st) ∧
    predict_fraud schema scorer ts fsFail features st =
      predict_fraud schema scorer' ts fsFail features st := by
  constructor
  · rw [predict_fraud, h]
  · rw [predict_fraud, h, predict_fraud, h]

/-- Witness for C6: input {"A": 1} against schema ["A","B"]. -/
theorem failed_validation_no_effects_witness :
    predict_fraud ["A", "B"] (fun _ => .ok 1) "t1" none [("A", 1)] none =
      (.error (.contract (.missingFeatures ({"B"} : Finset String))), none) ∧
    predict_fraud ["A", "B"] (fun _ => .ok 1) "t1" none [("A", 1)] none =
      predict_fraud ["A", "B"] (fun _ => .ok 0) "t1" none [("A", 1)] none :=
  failed_validation_no_effects ["A", "B"] (fun _ => .ok 1) (fun _ => .ok 0)
    "t1" none [("A", 1)] none (.missingFeatures {"B"}) (by decide)

/-- C2 counterexample: a request that validates (schema ["A"], input
{"A": 1}) and scores (probability 1/2) but whose append raises "disk full"
(here leaving behind the empty file the `open` created) gets the error
body, not the scoring response with the computed probability and decision
that the claim requires. -/
theorem persistence_failure_counterexample :
    (predict_fraud ["A"] (fun _ => .ok (1/2)) "t1" (some ("disk full", some []))
        [("A", 1)] none).1 = Response.error (.persistence "disk full") ∧
    (predict_fraud ["A"] (fun _ => .ok (1/2)) "t1" (some ("disk full", some []))
        [("A", 1)] none).1 ≠
      Response.ok (round6 (1/2)) (make_decision (.fin (1/2))) := by
  exact ⟨by decide, by decide⟩

/-- C2 (amended): for every request that validates and scores successfully,
if the audit-log append then raises, the catch-all handler returns the
`{"error": ...}` body — the computed probability and decision are not
returned to the caller — whatever state the failed append left the log file
in. -/
theorem persistence_failure_returns_error (schema : List String)
    (scorer : List ℚ → Except String ℚ) (ts : String)
    (features : List (String × ℚ)) (st st' : LogState) (X : List ℚ) (p : ℚ)
    (e : String)
    (h1 : preprocess_input schema features = .ok X)
    (h2 : scorer X = .ok p) :
    predict_fraud schema scorer ts (some (e, st')) features st =
      (Response.error (.persistence e), st') := by
  simp [predict_fraud, h1, h2]

/-- Witness for C2 (amended): the "disk full" scenario, the failed append
having created an empty log file. -/
theorem persistence_failure_returns_error_witness :
    preprocess_input ["A"] [("A", 1)] = .ok [1] ∧
    predict_fraud ["A"] (fun _ => .ok (1/2)) "t1" (some ("disk full", some []))
        [("A", 1)] none =
      (Response.error (.persistence "disk full"), some []) :=
  ⟨by decide,
   persistence_failure_returns_error ["A"] (fun _ => .ok (1/2)) "t1"
     [("A", 1)] none (some []) [1] (1/2) "disk full" (by decide) rfl⟩

/-- C8: whenever the pipeline fails — validation error, scoring error, or
the append raising — the endpoint returns a `{"error": ...}` body through a
normal handler return, which FastAPI maps to HTTP status 200, never a
non-success status. -/
theorem errors_return_http_200 (schema : List String)
    (scorer : List ℚ → Except String ℚ) (ts : String)
    (fsFail : Option (String × LogState))
    (features : List (String × ℚ)) (st st' : LogState) (e : ContractError)
    (X : List ℚ) (p : ℚ) (msg : String) :
    (preprocess_input schema features = .error e →
      predict_endpoint schema scorer ts fsFail features st =
        .returned (.error (.contract e)) ∧
      httpStatus (predict_endpoint schema scorer ts fsFail features st) = 200) ∧
    (preprocess_input schema features = .ok X → scorer X = .error msg →
      predict_endpoint schema scorer ts fsFail features st =
        .returned (.error (.scoring msg)) ∧
      httpStatus (predict_endpoint schema scorer ts fsFail features st) = 200) ∧
    (preprocess_input schema features = .ok X → scorer X = .ok p →
      predict_endpoint schema scorer ts (some (msg, st')) features st =
        .returned (.error (.persistence msg)) ∧
      httpStatus (predict_endpoint schema scorer ts (some (msg, st'))
        features st) = 200) := by
  refine ⟨?_, ?_, ?_⟩
  · intro h
    simp [predict_endpoint, predict_fraud, h, httpStatus]
  · intro h1 h2
    simp [predict_endpoint, predict_fraud, h1, h2, httpStatus]
  · intro h1 h2
    simp [predict_endpoint, predict_fraud, h1, h2, httpStatus]

/-- Witness for C8: a validation failure gets body `{"error": ...}` and
status 200. -/
theorem errors_return_http_200_witness :
    predict_endpoint ["A", "B"] (fun _ => .ok 1) "t1" none [("A", 1)] none =
      .returned (.error (.contract (.missingFeatures ({"B"} : Finset String)))) ∧
    httpStatus (predict_endpoint ["A", "B"] (fun _ => .ok 1) "t1" none
      [("A", 1)] none) = 200 :=
  (errors_return_http_200 ["A", "B"] (fun _ => .ok 1) "t1" none [("A", 1)]
    none none (.missingFeatures {"B"}) [] 0 "m").1 (by decide)

/-! ## Audit log claims -/

theorem predict_step_log {schema : List String}
    {scorer : List ℚ → Except String ℚ} {c : Call}
    (h : callOk schema scorer c = true) (st : LogState) :
    (predict_fraud schema scorer c.1 none c.2 st).2 =
      log_transaction c.1 (callProb schema scorer c)
        (make_decision (.fin (callProb schema scorer c))) st ∧
    callRow schema scorer c =
      Row.data c.1 (round6 (callProb schema scorer c))
        (make_decision (.fin (callProb schema scorer c))) := by
  rw [callOk] at h
  cases hp : preprocess_input schema c.2 with
  | error e => simp [hp] at h
  | ok X =>
    cases hs : scorer X with
    | error m => simp [hp, hs] at h
    | ok p =>
      constructor
      · simp [predict_fraud, callProb, hp, hs]
      · simp [callRow, callProb, hp, hs]

theorem runCalls_from_existing (schema : List String)
    (scorer : List ℚ → Except String ℚ) (calls : List Call) (rows : List Row)
    (hok : calls.all (callOk schema scorer) = true) :
    runCalls schema scorer calls (some rows) =
      some (rows ++ calls.map (callRow schema scorer)) := by
  induction calls generalizing rows with
  | nil => simp [runCalls]
  | cons c rest ih =>
    rw [List.all_cons, Bool.and_eq_true] at hok
    have hstep := predict_step_log hok.1 (some rows)
    rw [runCalls, hstep.1]
    simp only [log_transaction]
    rw [← hstep.2, ih (rows ++ [callRow schema scorer c]) hok.2]
    simp

/-- C3: starting from a state where the log file does not exist, after any
N ≥ 1 successful sequential scoring calls the log contains exactly one
header row followed by exactly the N data rows of the calls, in call order;
and `log_transaction` writes the header exactly when the file does not
exist at the time of the append. -/
theorem audit_log_after_calls (schema : List String)
    (scorer : List ℚ → Except String ℚ) (calls : List Call)
    (ts : String) (p : ℚ) (d : String) (rows : List Row)
    (hne : calls ≠ [])
    (hok : calls.all (callOk schema scorer) = true) :
    runCalls schema scorer calls none =
      some (Row.header :: calls.map (callRow schema scorer)) ∧
    log_transaction ts p d none = some [Row.header, Row.data ts (round6 p) d] ∧
    log_transaction ts p d (some rows) =
      some (rows ++ [Row.data ts (round6 p) d]) := by
  refine ⟨?_, rfl, rfl⟩
  cases calls with
  | nil => exact absurd rfl hne
  | cons c rest =>
    rw [List.all_cons, Bool.and_eq_true] at hok
    have hstep := predict_step_log hok.1 none
    rw [runCalls, hstep.1]
    simp only [log_transaction]
    rw [← hstep.2, runCalls_from_existing schema scorer rest _ hok.2]
    simp

/-- Witness for C3: two successful calls against schema ["A"] starting from
a nonexistent log file. -/
theorem audit_log_after_calls_witness :
    (([("t1", [("A", 1)]), ("t2", [("A", 2)])] : List Call) ≠ [] ∧
      ([("t1", [("A", 1)]), ("t2", [("A", 2)])] : List Call).all
        (callOk ["A"] (fun _ => .ok (1/2))) = true) ∧
    (runCalls ["A"] (fun _ => .ok (1/2))
        [("t1", [("A", 1)]), ("t2", [("A", 2)])] none =
      some (Row.header ::
        ([("t1", [("A", 1)]), ("t2", [("A", 2)])] : List Call).map
          (callRow ["A"] (fun _ => .ok (1/2)))) ∧
    log_transaction "t3" (1/2) "ALLOW" none =
      some [Row.header, Row.data "t3" (round6 (1/2)) "ALLOW"] ∧
    log_transaction "t3" (1/2) "ALLOW" (some [Row.header]) =
      some ([Row.header] ++ [Row.data "t3" (round6 (1/2)) "ALLOW"])) :=
  ⟨⟨by decide, by decide⟩,
   audit_log_after_calls ["A"] (fun _ => .ok (1/2))
     [("t1", [("A", 1)]), ("t2", [("A", 2)])] "t3" (1/2) "ALLOW" [Row.header]
     (by decide) (by decide)⟩

end FraudSystem
